import Mathlib

/-!
Shallow embedding of `source/ContainerPrinter/ContainerPrinter/ContainerPrinter.hpp`.

The header is a compile-time utility: a trait `Traits::is_printable_as_container`
deciding which types are printed as containers, a delimiter table
`Printer::delimiters` keyed by (container type, character type), two
`Printer::PrintingHelper` overloads writing a container's elements to a stream,
and a generic `operator<<` enabled exactly when the trait holds.

The embedding has two layers.

Type layer: `Ty` models the C++ types the header and its unit tests mention
(scalars, character types, fixed arrays, `std::basic_string`, `std::pair`,
`std::tuple`, `std::set`, `std::vector`, `std::list`, and classes publicly
derived from one of these).  The trait and the delimiter table are functions on
`Ty`; pattern-match order realizes the partial-specialization ordering of the
C++ templates (a more specialized template beats the general SFINAE one).

Value layer: `Val` models runtime values of the shapes the printing routine can
actually be instantiated at (ints, strings, pairs, vectors), and the stream is
modelled as the `String` of characters written so far; every C++ `stream << x`
becomes a function from the stream state to the extended stream state.
-/

/-- Character width of a character type or stream: `char` vs `wchar_t`. -/
inductive CharWidth where
  | narrow
  | wide
deriving DecidableEq

/-- Model of the C++ types relevant to the header: the types its specializations
name, the container types of its unit tests, and class types publicly derived
from another type (such as the tests' `VectorWrapper : public std::vector`). -/
inductive Ty where
  | scalarInt
  | charTy (w : CharWidth)
  | array (elem : Ty) (size : Nat)
  | basicString (w : CharWidth)
  | pair (fst snd : Ty)
  | tuple (args : List Ty)
  | set (elem : Ty)
  | vector (elem : Ty)
  | list (elem : Ty)
  | derivedFrom (base : Ty)

namespace Traits

/-- Does the type provide `begin()` and `end()` member functions together with
the `value_type` and `iterator` member typedefs?  This is the condition of the
`void_t` specialization of `is_printable_as_container` (header lines 40-51).
Among the modelled types, `std::basic_string`, `std::set`, `std::vector` and
`std::list` provide all four; a publicly derived class inherits its base's
member functions and typedefs, so the structural check also succeeds on it.
`std::pair`, `std::tuple`, raw arrays and scalars provide none of them. -/
def has_begin_end_value_type_iterator : Ty → Bool
  | .basicString _ => true
  | .set _ => true
  | .vector _ => true
  | .list _ => true
  | .derivedFrom base => has_begin_end_value_type_iterator base
  | _ => false

/-- Model of `Traits::is_printable_as_container` (header lines 27-115).  The
match arms realize the C++ partial-specialization ordering: the `char[N]` and
`wchar_t[N]` specializations (lines 79-91) are more specialized than the
general array one (lines 67-73); the exact `std::basic_string` specialization
(lines 96-109) beats the structural `void_t` specialization (lines 40-51),
which itself beats the `false` base case (lines 27-33).  The exact-match
specializations do not apply to a derived class, so a derived class is decided
by the structural check alone. -/
def is_printable_as_container : Ty → Bool
  | .array (.charTy _) _ => false
  | .basicString _ => false
  | .pair _ _ => true
  | .array _ _ => true
  | t => has_begin_end_value_type_iterator t

/-- Is the type a fixed-size array of a (narrow or wide) character type? -/
def is_character_array : Ty → Bool
  | .array (.charTy _) _ => true
  | _ => false

/-- Is the type an instantiation of the string class template? -/
def is_string_instantiation : Ty → Bool
  | .basicString _ => true
  | _ => false

/-- Is the type a pair instantiation? -/
def is_pair_type : Ty → Bool
  | .pair _ _ => true
  | _ => false

/-- Is the type a fixed-size array whose element type is not a character type? -/
def is_noncharacter_array : Ty → Bool
  | .array (.charTy _) _ => false
  | .array _ _ => true
  | _ => false

/-- Modelled from the spec: the classifier's decision policy as the spec words
it, in its stated priority order (spec section 4.1, first match wins):
character arrays are excluded, then string instantiations are excluded, then
pair-like types, fixed arrays of non-character element type and structurally
iterable types are accepted, and everything else is rejected. -/
def spec_is_printable_as_container (t : Ty) : Bool :=
  if is_character_array t then false
  else if is_string_instantiation t then false
  else if is_pair_type t then true
  else if is_noncharacter_array t then true
  else if has_begin_end_value_type_iterator t then true
  else false

end Traits

namespace Printer

/-- Model of `Printer::delimiter_values` (header lines 124-132): the three text
fragments wrapped together with the character width of their literals.  The
C++ fields are named `prefix`, `delimiter` and `postfix`; the first and last
are renamed `lead` and `trail` here. -/
structure delimiter_values where
  width : CharWidth
  lead : String
  delimiter : String
  trail : String
deriving DecidableEq

/-- Model of the `Printer::delimiters` lookup (header lines 137-236), keyed by
(container type, character type).  The `std::set`, `std::pair` and `std::tuple`
specializations (lines 170-236) carry their own bracket fragments; every other
container type falls to the default specialization for the requested character
width (lines 151-168).  Narrow and wide table entries hold the same glyphs, as
the wide literals in the header are the `L"..."` forms of the narrow ones. -/
def delimiters : Ty → CharWidth → delimiter_values
  | .set _, w => ⟨w, "\x7b", ", ", "\x7d"⟩
  | .pair _ _, w => ⟨w, "(", ", ", ")"⟩
  | .tuple _, w => ⟨w, "<", ", ", ">"⟩
  | _, w => ⟨w, "[", ", ", "]"⟩

/-- Container types that have their own `Printer::delimiters` specialization:
exactly the set, pair and tuple instantiations. -/
def has_specialized_delimiters : Ty → Bool
  | .set _ => true
  | .pair _ _ => true
  | .tuple _ => true
  | _ => false

end Printer

/-- Condition under which the generic `operator<<` of the header (lines
324-337) participates in overload resolution: its `std::enable_if_t` requires
`Traits::is_printable_as_container_v` of the container type (line 328). -/
def output_operator_enabled_for (t : Ty) : Bool :=
  Traits.is_printable_as_container t

/-- Iterator category fact about the modelled standard library types: does the
type's iterator support random access, in particular the expression
`std::end(container) - 1` used by the generic `PrintingHelper` (header line
259)?  Vectors, strings and raw arrays have random-access iterators (arrays:
pointers); `std::set` and `std::list` have bidirectional iterators only, which
have no subtraction operator.  A derived class inherits its base's iterator. -/
def iterator_supports_subtraction : Ty → Bool
  | .vector _ => true
  | .basicString _ => true
  | .array _ _ => true
  | .derivedFrom base => iterator_supports_subtraction base
  | _ => false

/-- Member-function fact about the modelled standard library types: does the
type have a `back()` member function, as used by the generic `PrintingHelper`
(header line 265)?  Vectors, lists and strings do; `std::set` has no `back`
member, and a raw array has no member functions at all. -/
def has_back_member : Ty → Bool
  | .vector _ => true
  | .list _ => true
  | .basicString _ => true
  | .derivedFrom base => has_back_member base
  | _ => false

/-- Does the body of the generic `PrintingHelper` overload (header lines
246-266) compile when instantiated at the given container type?  Beyond the
iteration members the trait already checks, the body evaluates
`std::end(container) - 1` (line 259), requiring random-access iterators, and
calls `container.back()` (line 265), requiring a `back` member function. -/
def printing_helper_instantiates (t : Ty) : Bool :=
  iterator_supports_subtraction t && has_back_member t

/-- Model of the runtime values the printing routine can actually be
instantiated at: C++ `int` values, narrow strings, `std::pair` values and
`std::vector` values (with arbitrary, possibly nested, element values). -/
inductive Val where
  | intV (n : Int)
  | strV (s : String)
  | pairV (fst snd : Val)
  | vecV (elems : List Val)

mutual

/-- Static type of a modelled value, used to consult the trait and the
delimiter table exactly as the C++ templates are instantiated at the value's
type. -/
def tyOfVal : Val → Ty
  | .intV _ => .scalarInt
  | .strV _ => .basicString .narrow
  | .pairV a b => .pair (tyOfVal a) (tyOfVal b)
  | .vecV es => .vector (vecElemTy es)

/-- Element type of a modelled vector value. -/
def vecElemTy : List Val → Ty
  | [] => .scalarInt
  | v :: _ => tyOfVal v

end

theorem Val.sizeOf_pos (v : Val) : 0 < sizeOf v := by
  cases v <;> simp_arith

theorem sizeOf_dropLast_lt : ∀ (l : List Val), l ≠ [] → sizeOf l.dropLast < sizeOf l := by
  intro l
  induction l with
  | nil => intro h; exact absurd rfl h
  | cons a t ih =>
    intro _
    cases t with
    | nil => simp [List.dropLast]
    | cons b u =>
      have h2 : sizeOf (b :: u).dropLast < sizeOf (b :: u) := ih (by simp)
      simp only [List.dropLast]
      simp only [List.cons.sizeOf_spec] at h2 ⊢
      omega

mutual

/-- Model of `stream << value` on a narrow stream, for each element value the
printing routine can encounter.  Overload resolution picks the standard
inserters for `int` and `std::string` (the trait rejects both types, header
lines 27-33 and 96-109, so the generic operator does not compete), and the
header's generic `operator<<` for pairs and vectors, which forwards to the
matching `PrintingHelper` overload.  The stream is the text written so far;
every write appends. -/
def insertVal (s : String) : Val → String
  | .intV n => s ++ toString n
  | .strV t => s ++ t
  | .pairV a b => printingHelperPair s a b
  | .vecV es => printingHelperSeq s es
termination_by v => sizeOf v

/-- Model of the `std::pair` overload of `Printer::PrintingHelper` (header
lines 271-293): look up the delimiters for the pair's type and the stream's
character type, then write prefix, first element, separator, second element,
postfix, with the two elements written through `stream << x` again. -/
def printingHelperPair (s : String) (a b : Val) : String :=
  let d := Printer.delimiters (tyOfVal (Val.pairV a b)) CharWidth.narrow
  insertVal (insertVal (s ++ d.lead) a ++ d.delimiter) b ++ d.trail
termination_by sizeOf a + sizeOf b
decreasing_by
  · simp_wf
    have hb := Val.sizeOf_pos b
    omega
  · simp_wf
    have ha := Val.sizeOf_pos a
    omega

/-- Model of the generic overload of `Printer::PrintingHelper` (header lines
241-266) at a vector instantiation: look up the delimiters for the container
type and the stream's character type (line 250); if `std::distance` of the
range is zero, return with nothing written (lines 252-255); otherwise write the
prefix (line 257), write every element but the last followed by the separator
(`std::for_each` over `[begin, end - 1)`, lines 259-263), and write the last
element (`container.back()`) followed by the postfix (line 265). -/
def printingHelperSeq (s : String) (es : List Val) : String :=
  let d := Printer.delimiters (Ty.vector (vecElemTy es)) CharWidth.narrow
  if h : es.length = 0 then s
  else
    insertVal (forEachInsert (s ++ d.lead) d.delimiter es.dropLast)
      (es.getLast (by intro heq; exact h (by simp [heq]))) ++ d.trail
termination_by sizeOf es
decreasing_by
  · simp_wf
    exact sizeOf_dropLast_lt es (by intro heq; exact h (by simp [heq]))
  · simp_wf
    exact List.sizeOf_lt_of_mem (List.getLast_mem _)

/-- Model of the `std::for_each` loop body (header lines 259-263): for each
element of the given range, write the element and then the separator. -/
def forEachInsert (s : String) (sep : String) : List Val → String
  | [] => s
  | v :: vs => forEachInsert (insertVal s v ++ sep) sep vs
termination_by l => sizeOf l

end

/-- Text a value prints as, starting from an empty stream. -/
def printVal (v : Val) : String := insertVal "" v

namespace ContainerPrinter

/-- Model of `Printer::ContainerPrinter<...>::PrintTo` (header lines 303-318):
the class stores a const reference to the container and `PrintTo` forwards the
stream and the stored container to `PrintingHelper`, selecting the overload
that matches the container's type.  For a value that is neither a pair nor a
sequence no overload exists; that branch returns the stream unchanged and is
unreachable from the enabled operator. -/
def PrintTo (container : Val) (stream : String) : String :=
  match container with
  | .pairV a b => printingHelperPair stream a b
  | .vecV es => printingHelperSeq stream es
  | _ => stream

end ContainerPrinter

/-- Model of the generic `operator<<` of the header (lines 324-337): construct
a `ContainerPrinter` over the container, let it print to the stream, and return
the stream.  Participates in overload resolution only under
`output_operator_enabled_for` of the container's type (line 328). -/
def output_operator (stream : String) (container : Val) : String :=
  ContainerPrinter.PrintTo container stream

/-- Writes only extend the stream: each printing function applied to a stream
`s ++ t` yields `s` followed by its result on `t`.  Proved for all four
mutually recursive functions at once, by strong induction on the size of the
printed value. -/
theorem writes_append_all (n : Nat) :
    (∀ v, sizeOf v ≤ n → ∀ s t : String, insertVal (s ++ t) v = s ++ insertVal t v) ∧
    (∀ a b, sizeOf a + sizeOf b ≤ n →
      ∀ s t : String, printingHelperPair (s ++ t) a b = s ++ printingHelperPair t a b) ∧
    (∀ es, sizeOf es ≤ n →
      ∀ s t : String, printingHelperSeq (s ++ t) es = s ++ printingHelperSeq t es) ∧
    (∀ l, sizeOf l ≤ n →
      ∀ sep s t : String, forEachInsert (s ++ t) sep l = s ++ forEachInsert t sep l) := by
  induction n using Nat.strong_induction_on with
  | _ n ih =>
    refine ⟨?_, ?_, ?_, ?_⟩
    · intro v hv s t
      cases v with
      | intV m => simp [insertVal, String.append_assoc]
      | strV str => simp [insertVal, String.append_assoc]
      | pairV a b =>
        have hm : sizeOf a + sizeOf b < n := by
          simp [Val.pairV.sizeOf_spec] at hv; omega
        simp only [insertVal]
        exact (ih _ hm).2.1 a b le_rfl s t
      | vecV es =>
        have hm : sizeOf es < n := by
          simp [Val.vecV.sizeOf_spec] at hv; omega
        simp only [insertVal]
        exact (ih _ hm).2.2.1 es le_rfl s t
    · intro a b hab s t
      have hb := Val.sizeOf_pos b
      have ha := Val.sizeOf_pos a
      have hia : sizeOf a < n := by omega
      have hib : sizeOf b < n := by omega
      simp only [printingHelperPair, tyOfVal, Printer.delimiters]
      rw [String.append_assoc s t]
      rw [(ih _ hia).1 a le_rfl s]
      rw [String.append_assoc s]
      rw [(ih _ hib).1 b le_rfl s]
      rw [String.append_assoc s]
    · intro es hes s t
      by_cases h0 : es.length = 0
      · have : es = [] := List.length_eq_zero.mp h0
        subst this
        simp [printingHelperSeq]
      · have hne : es ≠ [] := by intro heq; exact h0 (by simp [heq])
        have hdl : sizeOf es.dropLast < n :=
          lt_of_lt_of_le (sizeOf_dropLast_lt es hne) hes
        have hgl : sizeOf (es.getLast hne) < n :=
          lt_of_lt_of_le (List.sizeOf_lt_of_mem (List.getLast_mem hne)) hes
        simp only [printingHelperSeq, dif_neg h0, Printer.delimiters]
        rw [String.append_assoc s t]
        rw [(ih _ hdl).2.2.2 es.dropLast le_rfl _ s]
        rw [(ih _ hgl).1 (es.getLast hne) le_rfl s]
        rw [String.append_assoc s]
    · intro l hl sep s t
      cases l with
      | nil => simp [forEachInsert]
      | cons v vs =>
        have hv : sizeOf v < n := by
          simp [List.cons.sizeOf_spec] at hl; omega
        have hvs : sizeOf vs < n := by
          simp [List.cons.sizeOf_spec] at hl; omega
        simp only [forEachInsert]
        rw [(ih _ hv).1 v le_rfl s t]
        rw [String.append_assoc s]
        rw [(ih _ hvs).2.2.2 vs le_rfl sep s]

/-- Writing a value to a stream appends exactly the value's text. -/
theorem insertVal_append (s : String) (v : Val) : insertVal s v = s ++ printVal v := by
  have h := (writes_append_all (sizeOf v)).1 v le_rfl s ""
  rwa [String.append_empty] at h

/-- Modelled from the spec: `join(texts, separator)`, the interleaving of a
list of text fragments with a separator. -/
def joinSep (sep : String) : List String → String
  | [] => ""
  | [t] => t
  | t :: ts => t ++ sep ++ joinSep sep ts

/-- The loop over all elements but the last, followed by the write of the last
element, produces exactly the elements' texts joined with the separator. -/
theorem forEachInsert_getLast (es : List Val) (h : es ≠ []) (sep s : String) :
    insertVal (forEachInsert s sep es.dropLast) (es.getLast h) =
      s ++ joinSep sep (es.map printVal) := by
  induction es generalizing s with
  | nil => exact absurd rfl h
  | cons a t ih =>
    cases t with
    | nil =>
      simp [List.dropLast, forEachInsert, joinSep, insertVal_append]
    | cons b u =>
      have hne : b :: u ≠ [] := by simp
      simp only [List.dropLast, forEachInsert, List.getLast]
      rw [ih hne]
      simp [joinSep, insertVal_append, String.append_assoc]

/-- C1: for every sequence-shaped container value with at least one element,
the printing routine writes exactly prefix, then the element texts joined with
the separator, then postfix, where each element's text is produced by the same
recursive classification-and-printing operator (`insertVal`). -/
theorem sequence_print_is_delimited_join (es : List Val) (h : es ≠ []) (s : String) :
    insertVal s (Val.vecV es) =
      s ++ "[" ++ joinSep ", " (es.map printVal) ++ "]" := by
  have h0 : ¬es.length = 0 := by simp [h]
  simp only [insertVal, printingHelperSeq, dif_neg h0, Printer.delimiters]
  rw [forEachInsert_getLast es h]

/-- C1 witness: the theorem applied to the two-element sequence 1, 2. -/
theorem sequence_print_is_delimited_join_witness :
    insertVal "" (Val.vecV [Val.intV 1, Val.intV 2]) =
      "" ++ "[" ++ joinSep ", " ([Val.intV 1, Val.intV 2].map printVal) ++ "]" :=
  sequence_print_is_delimited_join [Val.intV 1, Val.intV 2] (by simp) ""

/-- C2: the classifier agrees, on every modelled type, with the spec's
priority-ordered decision policy: character arrays and string instantiations
are rejected first, then pairs, non-character fixed arrays and structurally
iterable types are accepted, and every remaining type is rejected. -/
theorem classifier_matches_spec_policy (t : Ty) :
    Traits.is_printable_as_container t = Traits.spec_is_printable_as_container t := by
  cases t with
  | array e n =>
    cases e <;>
      simp [Traits.is_printable_as_container, Traits.spec_is_printable_as_container,
        Traits.is_character_array, Traits.is_string_instantiation, Traits.is_pair_type,
        Traits.is_noncharacter_array, Traits.has_begin_end_value_type_iterator]
  | _ =>
    simp [Traits.is_printable_as_container, Traits.spec_is_printable_as_container,
      Traits.is_character_array, Traits.is_string_instantiation, Traits.is_pair_type,
      Traits.is_noncharacter_array, Traits.has_begin_end_value_type_iterator]

/-- C3: printing an empty sequence writes nothing: the stream is returned
unchanged, the produced text is the empty string, and in particular it is not
the prefix-postfix text. -/
theorem empty_sequence_prints_nothing :
    (∀ s : String, insertVal s (Val.vecV []) = s) ∧
      printVal (Val.vecV []) = "" ∧ printVal (Val.vecV []) ≠ "[]" := by
  have hbase : ∀ s : String, insertVal s (Val.vecV []) = s := by
    intro s
    simp [insertVal, printingHelperSeq]
  refine ⟨hbase, hbase "", ?_⟩
  have h1 : printVal (Val.vecV []) = "" := hbase ""
  rw [h1]
  decide

/-- C4 counterexample: the generic output operator is not enabled for the
tuple type, because the classifier rejects every tuple instantiation; so the
claim that the operator is enabled for the tuple value (1, 2) is false. -/
theorem tuple_output_operator_disabled :
    output_operator_enabled_for (Ty.tuple [Ty.scalarInt, Ty.scalarInt]) = false := rfl

/-- C4 amended: the delimiter table does hold the angle-bracket fragments for
tuple instantiations, in both character widths, but the classifier rejects
tuples, so the generic output operator is not enabled for them and the tuple
value (1, 2) cannot be printed through it. -/
theorem tuple_delimiters_specialized_yet_unprintable :
    output_operator_enabled_for (Ty.tuple [Ty.scalarInt, Ty.scalarInt]) = false ∧
      Printer.delimiters (Ty.tuple [Ty.scalarInt, Ty.scalarInt]) CharWidth.narrow =
        ⟨CharWidth.narrow, "<", ", ", ">"⟩ ∧
      Printer.delimiters (Ty.tuple [Ty.scalarInt, Ty.scalarInt]) CharWidth.wide =
        ⟨CharWidth.wide, "<", ", ", ">"⟩ :=
  ⟨rfl, rfl, rfl⟩

/-- C5: the classifier accepts the ordered-unique-set type, so the generic
output operator is enabled for it and the set delimiters are in the table; but
the body of the generic printing routine does not instantiate at the set type,
because it subtracts from the end iterator and calls a back member the set
does not have.  Printing a set is therefore a compile-time error, not the
claimed braced text. -/
theorem set_print_enabled_but_body_rejects :
    Traits.is_printable_as_container (Ty.set Ty.scalarInt) = true ∧
      printing_helper_instantiates (Ty.set Ty.scalarInt) = false ∧
      Printer.delimiters (Ty.set Ty.scalarInt) CharWidth.narrow =
        ⟨CharWidth.narrow, "\x7b", ", ", "\x7d"⟩ :=
  ⟨rfl, rfl, rfl⟩

/-- C6: a pair value always prints as prefix, first element, separator, second
element, postfix — all five fragments, with no zero-count special case. -/
theorem pair_print_five_fragments (a b : Val) (s : String) :
    insertVal s (Val.pairV a b) =
      s ++ "(" ++ printVal a ++ ", " ++ printVal b ++ ")" := by
  simp only [insertVal, printingHelperPair, tyOfVal, Printer.delimiters]
  rw [insertVal_append, insertVal_append]

/-- C7: the delimiter lookup is a total function of (type, width); the returned
triple always carries the requested width, and every type without its own
specialization falls back to the default bracket triple in that width. -/
theorem delimiters_total_with_default_fallback (t : Ty) (w : CharWidth) :
    (Printer.delimiters t w).width = w ∧
      (Printer.has_specialized_delimiters t = false →
        Printer.delimiters t w = ⟨w, "[", ", ", "]"⟩) := by
  cases t <;> cases w <;>
    simp [Printer.delimiters, Printer.has_specialized_delimiters]

/-- C7 witness: the vector type has no specialization and resolves to the
default narrow bracket triple. -/
theorem delimiters_total_with_default_fallback_witness :
    Printer.has_specialized_delimiters (Ty.vector Ty.scalarInt) = false ∧
      Printer.delimiters (Ty.vector Ty.scalarInt) CharWidth.narrow =
        ⟨CharWidth.narrow, "[", ", ", "]"⟩ :=
  ⟨rfl,
    (delimiters_total_with_default_fallback (Ty.vector Ty.scalarInt) CharWidth.narrow).2 rfl⟩

/-- C8: for every value whose type the classifier accepts, the generic output
operator returns the given stream extended by exactly the value's printed
text: its only effect on the stream is the appended characters, and the
container value itself (immutable in the model, as in the const reference of
the source) is left untouched. -/
theorem output_operator_appends_print_text (v : Val) (s : String)
    (h : output_operator_enabled_for (tyOfVal v) = true) :
    output_operator s v = s ++ printVal v := by
  cases v with
  | intV n =>
    simp [output_operator_enabled_for, tyOfVal, Traits.is_printable_as_container,
      Traits.has_begin_end_value_type_iterator] at h
  | strV t =>
    simp [output_operator_enabled_for, tyOfVal, Traits.is_printable_as_container,
      Traits.has_begin_end_value_type_iterator] at h
  | pairV a b =>
    calc output_operator s (Val.pairV a b) = printingHelperPair s a b := rfl
      _ = insertVal s (Val.pairV a b) := by simp [insertVal]
      _ = s ++ printVal (Val.pairV a b) := insertVal_append s (Val.pairV a b)
  | vecV es =>
    calc output_operator s (Val.vecV es) = printingHelperSeq s es := rfl
      _ = insertVal s (Val.vecV es) := by simp [insertVal]
      _ = s ++ printVal (Val.vecV es) := insertVal_append s (Val.vecV es)

/-- C8 witness: the theorem applied to the pair (10, 100) on a nonempty
stream. -/
theorem output_operator_appends_print_text_witness :
    output_operator_enabled_for (tyOfVal (Val.pairV (Val.intV 10) (Val.intV 100))) = true ∧
      output_operator "x" (Val.pairV (Val.intV 10) (Val.intV 100)) =
        "x" ++ printVal (Val.pairV (Val.intV 10) (Val.intV 100)) :=
  ⟨by simp [output_operator_enabled_for, tyOfVal, Traits.is_printable_as_container],
    output_operator_appends_print_text (Val.pairV (Val.intV 10) (Val.intV 100)) "x"
      (by simp [output_operator_enabled_for, tyOfVal, Traits.is_printable_as_container])⟩

/-- C9: printing the same value twice in a row appends the identical text both
times; the printing functions are pure, so no state influences the second
print. -/
theorem printing_twice_yields_identical_text (s : String) (v : Val) :
    insertVal (insertVal s v) v = s ++ printVal v ++ printVal v := by
  rw [insertVal_append (insertVal s v) v, insertVal_append s v]

/-- C10: a class publicly derived from a string instantiation is classified as
a printable container, because the string exclusion matches only exact string
instantiations while the structural rule sees the inherited members — unlike
the string type it derives from, which is rejected. -/
theorem derived_string_classified_unlike_string (w : CharWidth) :
    Traits.is_printable_as_container (Ty.derivedFrom (Ty.basicString w)) = true ∧
      Traits.is_printable_as_container (Ty.basicString w) = false :=
  ⟨rfl, rfl⟩
